import Mathlib

/-!
Verification of the portfolio analytics engine of this repository
(`utils.py`: `calculate_portfolio_metrics`, `markowitz_optimization`,
`risk_parity_optimization`, `simulate_backtest`).

Modelling conventions (shallow embedding):
* A pandas `DataFrame` of aligned daily prices is represented column-major:
  `List (List ℚ)`, one inner list per asset (column), all sharing the date
  axis, so row `t` of column `c` is `c.getD t _`.  Exact rationals stand in
  for the Python floats.
* pandas `NaN` propagation for statistics of empty/short series is
  represented with `Option ℚ` (`none` = `NaN`): the mean of an empty series
  and the `ddof=1` standard deviation of a series of fewer than two
  observations are `NaN` in pandas.
* A Python function that returns either a populated dict or the empty dict
  `{}` is modelled with `Option` (`none` = `{}`); where the distinction
  between Python `None`, `{}` and a populated dict matters, the dedicated
  type `PyRet` is used.
* `numpy.sqrt` only occurs inside the Sharpe ratio and the optimizers.  In
  the metrics record the Sharpe ratio is stored in the exact symbolic form
  `SharpeVal` (`ratioOf e q` denotes `e / Real.sqrt q`); the optimizers are
  modelled directly over `ℝ` with `Real.sqrt`.
-/

/-- Mean of a pandas series: `NaN` (here `none`) when the series is empty. -/
def meanQ (xs : List ℚ) : Option ℚ :=
  if xs.isEmpty then none else some (xs.sum / xs.length)

/-- Sample variance (pandas `ddof=1`), i.e. the square of `Series.std()`:
`NaN` (here `none`) for fewer than two observations.  The code compares the
standard deviation with `0`; since `std = sqrt var` and `var ≥ 0`, every such
comparison is expressed through the variance here. -/
def sampleVar (xs : List ℚ) : Option ℚ :=
  if xs.length < 2 then none
  else some (((xs.map (fun x => (x - xs.sum / xs.length) ^ 2)).sum) / ((xs.length : ℚ) - 1))

/-- Embeds `prices_df.pct_change().dropna()` for one column: simple returns
`price[t]/price[t-1] - 1`, first (undefined) row dropped. -/
def colReturns (c : List ℚ) : List ℚ :=
  List.zipWith (fun a b => b / a - 1) c c.tail

/-- Number of rows of a column-major aligned frame. -/
def numRows (xss : List (List ℚ)) : ℕ := (xss.head?.getD []).length

/-- Embeds `(returns_df * weights).sum(axis=1)`: the portfolio return at each date is
the weighted sum across the (aligned) per-asset return columns. -/
def portfolioReturns (rets : List (List ℚ)) (w : List ℚ) : List ℚ :=
  (List.range (numRows rets)).map
    (fun t => (List.zipWith (fun c wj => c.getD t 0 * wj) rets w).sum)

/-- Embeds `(1 + portfolio_returns).cumprod()`, with explicit accumulator. -/
def cumProdAux (acc : ℚ) : List ℚ → List ℚ
  | [] => []
  | r :: rs => (acc * (1 + r)) :: cumProdAux (acc * (1 + r)) rs

/-- Cumulative NAV curve `(1 + r).cumprod()` of a daily return series. -/
def cumProd (rs : List ℚ) : List ℚ := cumProdAux 1 rs

/-- Embeds `Series.expanding().max()` after the first element, with accumulator `m`
holding the running maximum so far. -/
def runningMaxAux (m : ℚ) : List ℚ → List ℚ
  | [] => []
  | x :: xs => max m x :: runningMaxAux (max m x) xs

/-- Embeds `Series.expanding().max()`: running maximum of the series. -/
def runningMax (xs : List ℚ) : List ℚ :=
  match xs with
  | [] => []
  | x :: xs => x :: runningMaxAux x xs

/-- Embeds `drawdown = (cumulative_returns - running_max) / running_max`. -/
def drawdownList (cum : List ℚ) : List ℚ :=
  List.zipWith (fun c m => (c - m) / m) cum (runningMax cum)

/-- Embeds `Series.min()`: `NaN` (`none`) on an empty series. -/
def listMin : List ℚ → Option ℚ
  | [] => none
  | x :: xs => some (xs.foldl min x)

/-- Embeds `drawdown.min()` of the drawdown series of the NAV curve of `rs`
(lines 931-934 of `utils.py`). -/
def maxDrawdownCalc (rs : List ℚ) : Option ℚ :=
  listMin (drawdownList (cumProd rs))

/-- Embeds `cumulative_returns.iloc[-1] - 1 if not cumulative_returns.empty else 0`. -/
def lastCumRet (rs : List ℚ) : ℚ :=
  match (cumProd rs).getLast? with
  | some v => v - 1
  | none => 0

/-- Exact symbolic value of a Sharpe ratio: `zero` is the guarded `0` branch,
`ratioOf e q` denotes the real number `e / Real.sqrt q` (`q` the squared
annualized volatility, `e` the excess return). -/
inductive SharpeVal where
  | zero : SharpeVal
  | ratioOf (excess : ℚ) (volSq : ℚ) : SharpeVal
deriving DecidableEq

/-- Real value denoted by a `SharpeVal`. -/
noncomputable def SharpeVal.toReal : SharpeVal → ℝ
  | SharpeVal.zero => 0
  | SharpeVal.ratioOf e q => (e : ℝ) / Real.sqrt (q : ℝ)

/-- Lines 921-928 of `utils.py` applied to the portfolio return series `rs`:
`annual_return = mean * 252`, `annual_volatility = std * sqrt 252`,
`sharpe = (annual_return - 0.02) / annual_volatility if annual_volatility > 0
else 0`.  A `NaN` volatility (series shorter than 2) fails the `> 0` test in
Python, so it also lands in the `else 0` branch.  `annual_volatility > 0`
holds iff the daily sample variance is `> 0`, and then the ratio equals
`(252*mean - 1/50) / Real.sqrt (252 * var)`. -/
def sharpeCalc (rs : List ℚ) : SharpeVal :=
  match sampleVar rs, meanQ rs with
  | some v, some m =>
      if 0 < v then SharpeVal.ratioOf (252 * m - 1 / 50) (252 * v) else SharpeVal.zero
  | _, _ => SharpeVal.zero

/-- The dict returned by `calculate_portfolio_metrics` (keys 年化收益率,
年化波动率, 夏普比率, 最大回撤, 累计收益率, 组合收益率序列, 累计收益序列).
The annualized volatility is stored by its square (`volatility =
Real.sqrt` of the stored value) so that the record stays decidable. -/
structure PortfolioMetrics where
  annualReturn : Option ℚ
  annualVolSq : Option ℚ
  sharpe : SharpeVal
  maxDrawdown : Option ℚ
  cumulativeReturn : ℚ
  portfolioSeries : List ℚ
  cumulativeSeries : List ℚ
deriving DecidableEq

/-- Embeds `prices_df.empty`: a DataFrame is empty iff it has no columns or no rows. -/
def dfEmpty (cols : List (List ℚ)) : Prop :=
  cols = [] ∨ (cols.head?.getD []) = []

instance (cols : List (List ℚ)) : Decidable (dfEmpty cols) := by
  unfold dfEmpty; infer_instance

/-- Lines 920-947 of `utils.py` given the portfolio daily return series
`pr`: the fields of the returned metrics dict. -/
def metricsOf (pr : List ℚ) : PortfolioMetrics :=
  PortfolioMetrics.mk
    ((meanQ pr).map (fun m => 252 * m))
    ((sampleVar pr).map (fun v => 252 * v))
    (sharpeCalc pr)
    (maxDrawdownCalc pr)
    (lastCumRet pr)
    pr
    (cumProd pr)

/-- Embeds `calculate_portfolio_metrics` (`utils.py` lines 900-947).  The guard on
line 911 returns the empty dict (`none`); otherwise the metrics record is
computed from the portfolio return series, the weighted sum of the aligned
per-asset simple returns. -/
def calculate_portfolio_metrics (cols : List (List ℚ)) (weights : List ℚ) :
    Option PortfolioMetrics :=
  if dfEmpty cols ∨ weights.length ≠ cols.length then none
  else some (metricsOf (portfolioReturns (cols.map colReturns) weights))

/-! ## Mean-variance and risk-parity optimizers (`utils.py` lines 949-1054)

`scipy.optimize.minimize` is third-party code; its outcome (the `success`
flag and the point `x` it returns) is an explicit parameter `SolverOutcome`
of the embedded optimizers, which model exactly the glue code around the
solver call: the objective and constraint functions handed to the solver and
the construction of the returned dict. -/

/-- Outcome of the external SLSQP solver call: `optimized.success` and
`optimized.x`. -/
structure SolverOutcome where
  success : Bool
  x : List ℚ
deriving DecidableEq

/-- Return value of a Python function that may return `None`, a populated
dict, or the empty dict `{}`. -/
inductive PyRet (α : Type) where
  | pyNone : PyRet α
  | val (a : α) : PyRet α
  | emptyDict : PyRet α

/-- Embeds `np.sum(xs * ys)` for two aligned vectors (elementwise product, sum). -/
def dotQ (xs ys : List ℚ) : ℚ := (List.zipWith (fun a b => a * b) xs ys).sum

/-- Embeds `np.dot(m, v)` for a square matrix held as a list of rows. -/
def matVecQ (m : List (List ℚ)) (v : List ℚ) : List ℚ :=
  m.map (fun row => dotQ row v)

/-- Embeds `np.dot(w.T, np.dot(m, w))`. -/
def quadFormQ (m : List (List ℚ)) (w : List ℚ) : ℚ := dotQ w (matVecQ m w)

/-- Mean of a column as a total function (`0` on an empty column; the
optimizer identities proved below never evaluate that case, which is `NaN`
in pandas). -/
def colMeanTotal (xs : List ℚ) : ℚ := xs.sum / xs.length

/-- Embeds `returns_df.mean() * 252`: annualized mean return per asset column. -/
def meanReturnsAnn (df : List (List ℚ)) : List ℚ :=
  df.map (fun c => 252 * colMeanTotal c)

/-- One entry of `returns_df.cov()` (pandas, `ddof=1`), total over ℚ
(`0` instead of `NaN` for series shorter than two rows). -/
def sampleCovQ (xs ys : List ℚ) : ℚ :=
  (List.zipWith (fun x y => (x - colMeanTotal xs) * (y - colMeanTotal ys)) xs ys).sum
    / ((xs.length : ℚ) - 1)

/-- Embeds `returns_df.cov() * 252`: annualized covariance matrix, row-major. -/
def covMatrixAnn (df : List (List ℚ)) : List (List ℚ) :=
  df.map (fun ci => df.map (fun cj => 252 * sampleCovQ ci cj))

/-- Embeds `portfolio_stats` (lines 966-970): `(port_return, port_volatility,
sharpe)` with `port_return = np.sum(mean_returns * weights)`,
`port_volatility = sqrt(w . (cov . w))`, `sharpe = port_return /
port_volatility`. -/
noncomputable def portfolio_stats (df : List (List ℚ)) (w : List ℚ) : ℝ × ℝ × ℝ :=
  ((dotQ (meanReturnsAnn df) w : ℝ),
   Real.sqrt ((quadFormQ (covMatrixAnn df) w : ℚ) : ℝ),
   (dotQ (meanReturnsAnn df) w : ℝ) / Real.sqrt ((quadFormQ (covMatrixAnn df) w : ℚ) : ℝ))

/-- Embeds `negative_sharpe` (lines 972-974): the objective function handed to the
minimizer. -/
noncomputable def negative_sharpe (df : List (List ℚ)) (w : List ℚ) : ℝ :=
  -(portfolio_stats df w).2.2

/-- Embeds `check_sum` (lines 976-977): the equality-constraint function; the
solver enforces `check_sum w = 0`. -/
def check_sum (w : List ℚ) : ℚ := w.sum - 1

/-- Embeds `bounds = tuple((0, 1) for _ in range(n_assets))` (line 981). -/
def markowitzBounds (n : ℕ) : List (ℚ × ℚ) := List.replicate n (0, 1)

/-- The dict built on lines 995-1000 when the solver converged (`sharpe`
models the key `sharpe_ratio`). -/
structure MarkowitzResult where
  weights : List ℚ
  expected_return : ℝ
  volatility : ℝ
  sharpe : ℝ

/-- The success branch of `markowitz_optimization`: the result dict is
filled from `portfolio_stats(opt_weights)`. -/
noncomputable def markowitzSuccessResult (df : List (List ℚ)) (x : List ℚ) :
    MarkowitzResult :=
  MarkowitzResult.mk x (portfolio_stats df x).1 (portfolio_stats df x).2.1
    (portfolio_stats df x).2.2

/-- Embeds `markowitz_optimization` (lines 949-1002): on solver success the dict of
lines 995-1000, otherwise the empty dict `{}` (line 1002). -/
noncomputable def markowitz_optimization (df : List (List ℚ)) (solver : SolverOutcome) :
    PyRet MarkowitzResult :=
  if solver.success then PyRet.val (markowitzSuccessResult df solver.x)
  else PyRet.emptyDict

/-- Embeds `risk_contribution` (lines 1019-1023), parameterized by the covariance
matrix the Python closure captures: `marginal_risk = (cov . w) /
port_volatility`, `risk_contributions = w * marginal_risk` elementwise. -/
noncomputable def risk_contribution (cov : List (List ℚ)) (w : List ℚ) : List ℝ :=
  List.zipWith (fun (wi : ℚ) (mi : ℝ) => ((wi : ℚ) : ℝ) * mi) w
    ((matVecQ cov w).map (fun (v : ℚ) => ((v : ℚ) : ℝ) /
      Real.sqrt ((quadFormQ cov w : ℚ) : ℝ)))

/-- Embeds `risk_parity_objective` (lines 1025-1028): `target_rc =
np.ones(n_assets) / n_assets` — the constant vector `1/N`, **not** scaled by
the portfolio volatility — and the objective is
`np.sum((risk_contributions - target_rc) ** 2)`. -/
noncomputable def risk_parity_objective (cov : List (List ℚ)) (w : List ℚ) : ℝ :=
  (List.zipWith (fun rc t => (rc - t) ^ 2) (risk_contribution cov w)
    (List.replicate cov.length ((1 : ℝ) / (cov.length : ℝ)))).sum

/-- The dict built on lines 1049-1052 when the solver converged. -/
structure RiskParityResult where
  weights : List ℚ
  risk_contributions : List ℝ

/-- Embeds `risk_parity_optimization` (lines 1004-1054): on solver success the dict
of lines 1049-1052, otherwise the empty dict `{}` (line 1054). -/
noncomputable def risk_parity_optimization (df : List (List ℚ))
    (solver : SolverOutcome) : PyRet RiskParityResult :=
  if solver.success then
    PyRet.val (RiskParityResult.mk solver.x
      (risk_contribution (covMatrixAnn df) solver.x))
  else PyRet.emptyDict

/-! ## Backtest simulator (`utils.py` lines 488-630)

`yf.download` is the caller-side data boundary: the downloaded series are
inputs of the embedded function.  Each requested ticker maps to `none` when
the download raised, or to a series on the common aligned date axis with
`none` entries on dates the ticker has no data (so `len(hist)` is the number
of `some` entries and the `pd.concat` of the retrieved series is positional).
The two `np.random.normal` draws (lines 552 and 561) are explicit inputs
`noiseA`/`noiseB`, since the Python RNG state is hidden state of the
process, not an argument of the call. -/

/-- Inputs of one `simulate_backtest` call: the requested tickers (as
opaque numeric ids), the requested weights, the downloaded price series per
ticker, and the downloaded benchmark series (`^GSPC`; `none` when that
download failed or returned an empty frame). -/
structure BTInput where
  stocks : List ℕ
  weights : List ℚ
  fetched : List (Option (List (Option ℚ)))
  bench : Option (List ℚ)
deriving DecidableEq

/-- Number of actual data rows of a downloaded series (`len(hist)`). -/
def countSome (c : List (Option ℚ)) : ℕ := (c.filterMap id).length

/-- The loop of lines 508-517: keep `(stock, weight, series)` for tickers
whose download succeeded with a non-empty history of more than 20 rows. -/
def btValid (inp : BTInput) :
    List (ℕ × ℚ × List (Option ℚ)) :=
  ((inp.stocks.zip inp.weights).zip inp.fetched).filterMap
    (fun p =>
      match p.2 with
      | none => none
      | some col =>
          if 0 < countSome col ∧ 20 < countSome col then
            some (p.1.1, p.1.2, col)
          else none)

/-- Embeds `valid_stocks`. -/
def btStocks (inp : BTInput) : List ℕ := (btValid inp).map (fun t => t.1)

/-- Embeds `valid_weights` before renormalization. -/
def btRawWeights (inp : BTInput) : List ℚ := (btValid inp).map (fun t => t.2.1)

/-- The price columns of `prices_df` (values on the aligned axis). -/
def btPriceCols (inp : BTInput) : List (List (Option ℚ)) :=
  (btValid inp).map (fun t => t.2.2)

/-- Lines 530-535: `valid_weights = [w/sum ...]` if their sum is positive,
else equal weights. -/
def btNormWeights (inp : BTInput) : List ℚ :=
  let vw := btRawWeights inp
  if 0 < vw.sum then vw.map (fun w => w / vw.sum)
  else List.replicate vw.length ((1 : ℚ) / (vw.length : ℚ))

/-- Forward fill of one column, carrying the last observed value. -/
def ffillAux (last : Option ℚ) : List (Option ℚ) → List (Option ℚ)
  | [] => []
  | x :: xs =>
      match x with
      | some v => some v :: ffillAux (some v) xs
      | none => last :: ffillAux last xs

/-- Embeds `Series.ffill()`. -/
def ffillCol (c : List (Option ℚ)) : List (Option ℚ) := ffillAux none c

/-- Row `t` survives `dropna()` iff every (forward-filled) column has a
value there. -/
def keptRow (cols : List (List (Option ℚ))) (t : ℕ) : Bool :=
  cols.all (fun c => (c.getD t none).isSome)

/-- Embeds `prices_df.ffill().dropna()` (line 538), column-major result. -/
def btAligned (inp : BTInput) : List (List ℚ) :=
  let fcols := (btPriceCols inp).map ffillCol
  let n := (fcols.head?.getD []).length
  fcols.map (fun c =>
    (List.range n).filterMap (fun t =>
      if keptRow fcols t then c.getD t none else none))

/-- Embeds `returns_df = prices_df.pct_change().dropna()` (line 544). -/
def btReturns (inp : BTInput) : List (List ℚ) := (btAligned inp).map colReturns

/-- The guard of line 550, `returns_df.std().mean() == 0`: the mean of the
per-column standard deviations is zero iff every one of these nonnegative
numbers is zero, i.e. iff every per-column sample variance is zero (all
columns have at least the 10 rows checked on line 546, so no `NaN` std
occurs here). -/
def btZeroVarGuard (inp : BTInput) : Prop :=
  ∀ c ∈ btReturns inp, sampleVar c = some 0

instance (inp : BTInput) : Decidable (btZeroVarGuard inp) := by
  unfold btZeroVarGuard; infer_instance

/-- Embeds `returns_df + noise` (line 553), elementwise on the column-major frame. -/
def addMat (cols noise : List (List ℚ)) : List (List ℚ) :=
  List.zipWith (fun c nc => List.zipWith (fun a b => a + b) c nc) cols noise

/-- One result dict of `simulate_backtest` in the success case (lines
614-625).  As in `PortfolioMetrics`, annualized volatility is stored via its
square (the value on line 618 is `Real.sqrt` of it), and the Sharpe ratio of
line 596 symbolically as a `SharpeVal`. -/
structure BacktestOk where
  portfolioCumulative : List ℚ
  benchmarkCumulative : List ℚ
  annualReturn : ℚ
  annualVolSq : ℚ
  sharpe : SharpeVal
  maxDrawdown : ℚ
  cumulativeReturn : ℚ
  weights : List ℚ
  stocks : List ℕ
  pricesDf : List (List ℚ)
deriving DecidableEq

/-- Observable result of `simulate_backtest`: the error dict of line 524
(no ticker retrievable), the error dicts of lines 541 and 547 (too few
aligned rows, carrying the row count interpolated into the message), or a
populated result dict. -/
inductive BacktestResult where
  | errNoData : BacktestResult
  | errFewPrices (nAvail : ℕ) : BacktestResult
  | errFewReturns (nAvail : ℕ) : BacktestResult
  | ok (r : BacktestOk) : BacktestResult
deriving DecidableEq

/-- Does the error message report how many observations were available?
True exactly for the two messages of lines 541 and 547. -/
def reportsAvailCount : BacktestResult → Bool
  | BacktestResult.errFewPrices _ => true
  | BacktestResult.errFewReturns _ => true
  | _ => false

/-- Total mean (denominator never zero on the paths that use it: the row
counts were checked to be at least 10). -/
def meanTotal (xs : List ℚ) : ℚ := xs.sum / xs.length

/-- Total sample variance, the square of `Series.std()` (`ddof=1`). -/
def sampleVarTotal (xs : List ℚ) : ℚ :=
  ((xs.map (fun x => (x - meanTotal xs) ^ 2)).sum) / ((xs.length : ℚ) - 1)

/-- Lines 590-593: `annual_volatility = std * sqrt 252`, floored to `0.01`
when it is exactly `0`; stored as its square (`std = 0` iff the sample
variance is `0`). -/
def btAnnVolSq (pr : List ℚ) : ℚ :=
  if sampleVarTotal pr = 0 then 1 / 10000 else 252 * sampleVarTotal pr

/-- Lines 567-585, under the harmless simplification that the benchmark
series lives on (a superset of) the portfolio's aligned date axis, so the
intersection of the two date indexes is a suffix of both: when the
benchmark download succeeded with more than 10 rows and more than 10 common
dates remain, the benchmark NAV on the common suffix is returned together
with the portfolio NAV restricted to it; otherwise a flat `1.0` series. -/
def btBench (bench : Option (List ℚ)) (cum : List ℚ) : List ℚ × List ℚ :=
  match bench with
  | some b =>
      if 10 < b.length ∧ 10 < min (colReturns b).length cum.length then
        let c := min (colReturns b).length cum.length
        (cumProd ((colReturns b).drop ((colReturns b).length - c)),
         cum.drop (cum.length - c))
      else (List.replicate cum.length 1, cum)
  | none => (List.replicate cum.length 1, cum)

/-- Line 602-603: `running_max.replace(0, 1e-10)` when any entry is zero. -/
def replaceZeros (xs : List ℚ) : List ℚ :=
  if xs.any (fun x => x = 0) then
    xs.map (fun x => if x = 0 then 1 / 10000000000 else x)
  else xs

/-- Lines 563-625 given the final portfolio return series `pr`: NAV curve,
benchmark alignment, annualized metrics, drawdown and the result dict. -/
def btFinish (inp : BTInput) (pr : List ℚ) : BacktestResult :=
  let cum := cumProd pr
  let bc := btBench inp.bench cum
  let alignedCum := bc.2
  let annualReturn := 252 * meanTotal pr
  let volSq := btAnnVolSq pr
  let runMax := replaceZeros (runningMax alignedCum)
  let dd := List.zipWith (fun c m => (c - m) / m) alignedCum runMax
  BacktestResult.ok (BacktestOk.mk
    alignedCum
    bc.1
    annualReturn
    volSq
    (SharpeVal.ratioOf (annualReturn - 3 / 100) volSq)
    ((listMin dd).getD 0)
    (match alignedCum.getLast? with
     | some v => v - 1
     | none => 0)
    (btNormWeights inp)
    (btStocks inp)
    (btAligned inp))

/-- Embeds `returns_df` after the zero-variance guard of lines 549-553: noise is
added exactly when the guard fires. -/
def btNoisyReturns (inp : BTInput) (noiseA : List (List ℚ)) : List (List ℚ) :=
  if btZeroVarGuard inp then addMat (btReturns inp) noiseA else btReturns inp

/-- Embeds `portfolio_returns` of line 556. -/
def btPr0 (inp : BTInput) (noiseA : List (List ℚ)) : List ℚ :=
  portfolioReturns (btNoisyReturns inp noiseA) (btNormWeights inp)

/-- Embeds `portfolio_returns` after the second zero-variance guard of lines
558-561 (`portfolio_returns.std() == 0`, i.e. its sample variance is `0`;
the series has at least the 10 rows checked on line 546). -/
def btFinalReturns (inp : BTInput) (noiseA : List (List ℚ)) (noiseB : List ℚ) :
    List ℚ :=
  if sampleVarTotal (btPr0 inp noiseA) = 0 then
    List.zipWith (fun a b => a + b) (btPr0 inp noiseA) noiseB
  else btPr0 inp noiseA

/-- Embeds `simulate_backtest` (`utils.py` lines 488-630).  The post-floor
`annual_volatility` on line 596 is always `> 0` (either `0.01` or a positive
square root), so the Sharpe ratio is always the `ratioOf` branch there. -/
def simulate_backtest (inp : BTInput) (noiseA : List (List ℚ)) (noiseB : List ℚ) :
    BacktestResult :=
  if btValid inp = [] then BacktestResult.errNoData
  else if numRows (btAligned inp) < 10 then
    BacktestResult.errFewPrices (numRows (btAligned inp))
  else if numRows (btReturns inp) < 10 then
    BacktestResult.errFewReturns (numRows (btReturns inp))
  else btFinish inp (btFinalReturns inp noiseA noiseB)

/-! ## Supporting lemmas -/

/-- A one-row price column yields an empty return series. -/
lemma colReturns_singleton (c : List ℚ) (h : c.length = 1) : colReturns c = [] := by
  match c, h with
  | [a], _ => rfl

/-- The metrics record of an empty portfolio return series: `NaN` mean,
volatility and drawdown, Sharpe `0`, cumulative return `0`. -/
lemma metricsOf_nil :
    metricsOf [] = PortfolioMetrics.mk none none SharpeVal.zero none 0 [] [] := by
  decide

/-! ## Claim C1 -/

/-- Claim C1 as frozen is false: on a 2-column price table with a weight
vector of length 1 (a shape mismatch), `calculate_portfolio_metrics`
returns normally with the empty metrics record `{}` (modelled `none`); no
`ShapeMismatch` error exists or is propagated (lines 911-912 of
`utils.py`). -/
theorem c1_counterexample :
    calculate_portfolio_metrics [[100, 101], [200, 202]] [1] = none := by
  decide

/-- Claim C1, amended: for every price table and weight vector whose length
differs from the number of asset columns, `calculate_portfolio_metrics`
returns the empty metrics record `{}` (not an error, not a populated
record). -/
theorem c1_shape_mismatch_empty_dict (cols : List (List ℚ)) (w : List ℚ)
    (h : w.length ≠ cols.length) : calculate_portfolio_metrics cols w = none := by
  unfold calculate_portfolio_metrics
  rw [if_pos (Or.inr h)]

/-- Witness for `c1_shape_mismatch_empty_dict` at a concrete mismatched
input. -/
theorem c1_shape_mismatch_empty_dict_witness :
    calculate_portfolio_metrics [[100, 101], [200, 202]] [7] = none :=
  c1_shape_mismatch_empty_dict [[100, 101], [200, 202]] [7] (by decide)

/-! ## Claim C2 -/

/-- Claim C2 as frozen is false: on the one-row price table `[[100]]` with
matching weights `[1]`, `calculate_portfolio_metrics` does return a record,
but its annualized-return field is `NaN` (the pandas mean of an empty
series, modelled `none`), not the zero the claim requires of an all-zeros
record. -/
theorem c2_counterexample :
    Option.map PortfolioMetrics.annualReturn
        (calculate_portfolio_metrics [[100]] [1]) = some none ∧
      Option.map PortfolioMetrics.annualReturn
        (calculate_portfolio_metrics [[100]] [1]) ≠ some (some 0) := by
  decide

/-- Claim C2, amended: on an empty price table the call returns the empty
record `{}` (`none`); on a one-row price table with a matching weight vector
it returns, without raising, a record whose Sharpe ratio and cumulative
return are `0` and whose return series is empty, but whose annualized
return, annualized volatility and max drawdown are `NaN` (`none`), not `0`. -/
theorem c2_single_row_record :
    (∀ (cols : List (List ℚ)) (w : List ℚ), dfEmpty cols →
      calculate_portfolio_metrics cols w = none) ∧
    (∀ (cols : List (List ℚ)) (w : List ℚ), cols ≠ [] →
      (∀ c ∈ cols, c.length = 1) → w.length = cols.length →
      calculate_portfolio_metrics cols w =
        some (PortfolioMetrics.mk none none SharpeVal.zero none 0 [] [])) := by
  constructor
  · intro cols w h
    unfold calculate_portfolio_metrics
    rw [if_pos (Or.inl h)]
  · intro cols w hne hrow hw
    obtain ⟨c, t, rfl⟩ : ∃ c t, cols = c :: t := by
      cases cols with
      | nil => exact absurd rfl hne
      | cons c t => exact ⟨c, t, rfl⟩
    have hc1 : c.length = 1 := hrow c (List.mem_cons_self c t)
    have hcne : c ≠ [] := by
      intro h
      rw [h] at hc1
      simp at hc1
    have hguard : ¬(dfEmpty (c :: t) ∨ w.length ≠ (c :: t).length) := by
      push_neg
      refine ⟨?_, hw⟩
      unfold dfEmpty
      push_neg
      exact ⟨List.cons_ne_nil c t, by simpa using hcne⟩
    unfold calculate_portfolio_metrics
    rw [if_neg hguard]
    have hpr : portfolioReturns ((c :: t).map colReturns) w = [] := by
      unfold portfolioReturns numRows
      simp [colReturns_singleton c hc1]
    rw [hpr, metricsOf_nil]

/-- Witness for `c2_single_row_record` at the concrete one-row input
`[[100]]`, weights `[1]`. -/
theorem c2_single_row_record_witness :
    calculate_portfolio_metrics [[100]] [1] =
      some (PortfolioMetrics.mk none none SharpeVal.zero none 0 [] []) :=
  c2_single_row_record.2 [[100]] [1] (by decide) (by decide) (by decide)

/-! ## Claim C3 -/

/-- The return series of a constant positive price column is all zeros. -/
lemma colReturns_const (c : List ℚ) (hc : ∀ x ∈ c, 0 < x ∧ ∀ y ∈ c, x = y) :
    ∀ z ∈ colReturns c, z = 0 := by
  induction c with
  | nil => intro z hz; simp [colReturns] at hz
  | cons a rest ih =>
      cases rest with
      | nil => intro z hz; simp [colReturns] at hz
      | cons b rest' =>
          intro z hz
          have hstep : colReturns (a :: b :: rest') =
              (b / a - 1) :: colReturns (b :: rest') := rfl
          rw [hstep] at hz
          rcases List.mem_cons.mp hz with h | h
          · have hab : a = b := (hc a (by simp)).2 b (by simp)
            have ha : (0 : ℚ) < a := (hc a (by simp)).1
            rw [h, ← hab, div_self (ne_of_gt ha), sub_self]
          · exact ih
              (fun x hx => ⟨(hc x (List.mem_cons_of_mem a hx)).1,
                fun y hy => (hc x (List.mem_cons_of_mem a hx)).2 y
                  (List.mem_cons_of_mem a hy)⟩) z h

/-- Reading any position of an all-zero column gives zero. -/
lemma getD_zero_of_all_zero (c : List ℚ) (h : ∀ x ∈ c, x = 0) :
    ∀ t, c.getD t 0 = 0 := by
  induction c with
  | nil => intro t; simp
  | cons a rest ih =>
      intro t
      cases t with
      | zero => exact h a (by simp)
      | succ t' => exact ih (fun x hx => h x (List.mem_cons_of_mem a hx)) t'

/-- The row-wise weighted sum over all-zero return columns is zero. -/
lemma zipWith_weight_sum_zero (rets : List (List ℚ)) (w : List ℚ)
    (h : ∀ c ∈ rets, ∀ x ∈ c, x = 0) (t : ℕ) :
    (List.zipWith (fun c wj => c.getD t 0 * wj) rets w).sum = 0 := by
  induction rets generalizing w with
  | nil => simp
  | cons c rest ih =>
      cases w with
      | nil => simp
      | cons wj ws =>
          simp only [List.zipWith_cons_cons, List.sum_cons]
          rw [getD_zero_of_all_zero c (h c (by simp)) t, zero_mul, zero_add]
          exact ih ws (fun c' hc' x hx => h c' (List.mem_cons_of_mem c hc') x hx)

/-- Sample variance of an all-zero series of length at least two is zero. -/
lemma sampleVar_of_all_zero (rs : List ℚ) (h : ∀ x ∈ rs, x = 0)
    (hl : ¬ rs.length < 2) : sampleVar rs = some 0 := by
  unfold sampleVar
  rw [if_neg hl]
  have hsum : rs.sum = 0 := List.sum_eq_zero h
  have hmap : (rs.map (fun x => (x - rs.sum / rs.length) ^ 2)).sum = 0 := by
    apply List.sum_eq_zero
    intro y hy
    rcases List.mem_map.mp hy with ⟨x, hx, rfl⟩
    rw [h x hx, hsum]
    norm_num
  rw [hmap, zero_div]

/-- The guarded Sharpe computation on an all-zero return series takes the
`else 0` branch: the volatility is either `NaN` (short series) or exactly
`0`, and neither passes the `> 0` test. -/
lemma sharpeCalc_of_all_zero (rs : List ℚ) (h : ∀ x ∈ rs, x = 0) :
    sharpeCalc rs = SharpeVal.zero := by
  by_cases hl : rs.length < 2
  · have hv : sampleVar rs = none := by unfold sampleVar; rw [if_pos hl]
    unfold sharpeCalc
    rw [hv]
  · have hv : sampleVar rs = some 0 := sampleVar_of_all_zero rs h hl
    unfold sharpeCalc
    rw [hv]
    cases hm : meanQ rs <;> simp

/-- Claim C3, confirmed: on a price table whose columns are all constant
(and positive, as prices are) with a matching weight vector, the portfolio
return series is identically zero, its standard deviation is zero, and
`calculate_portfolio_metrics` returns a record whose Sharpe ratio is the
guarded exact `0` — no division-by-zero error and no `NaN` (lines 921-928
of `utils.py`). -/
theorem c3_constant_prices_sharpe_zero (cols : List (List ℚ)) (w : List ℚ)
    (hne : ¬ dfEmpty cols)
    (hconst : ∀ c ∈ cols, ∀ x ∈ c, 0 < x ∧ ∀ y ∈ c, x = y)
    (hw : w.length = cols.length) :
    ∃ m, calculate_portfolio_metrics cols w = some m ∧
      m.sharpe = SharpeVal.zero ∧ SharpeVal.toReal m.sharpe = 0 := by
  have hall : ∀ c ∈ cols.map colReturns, ∀ x ∈ c, x = 0 := by
    intro c hc x hx
    rcases List.mem_map.mp hc with ⟨col, hcol, rfl⟩
    exact colReturns_const col (hconst col hcol) x hx
  have hpr : ∀ x ∈ portfolioReturns (cols.map colReturns) w, x = 0 := by
    intro x hx
    unfold portfolioReturns at hx
    rcases List.mem_map.mp hx with ⟨t, _, rfl⟩
    exact zipWith_weight_sum_zero _ w hall t
  have hz : sharpeCalc (portfolioReturns (cols.map colReturns) w) =
      SharpeVal.zero := sharpeCalc_of_all_zero _ hpr
  refine ⟨metricsOf (portfolioReturns (cols.map colReturns) w), ?_, hz, ?_⟩
  · unfold calculate_portfolio_metrics
    rw [if_neg (not_or.mpr ⟨hne, fun hcon => hcon hw⟩)]
  · show SharpeVal.toReal (sharpeCalc _) = 0
    rw [hz]
    rfl

/-- Witness for `c3_constant_prices_sharpe_zero` on a concrete two-asset
constant price table. -/
theorem c3_constant_prices_sharpe_zero_witness :
    ∃ m, calculate_portfolio_metrics [[100, 100, 100], [50, 50, 50]] [1/2, 1/2] =
        some m ∧ m.sharpe = SharpeVal.zero ∧ SharpeVal.toReal m.sharpe = 0 :=
  c3_constant_prices_sharpe_zero [[100, 100, 100], [50, 50, 50]] [1/2, 1/2]
    (by decide) (by decide) (by decide)

/-! ## Claim C4 -/

/-- With positive start and all growth factors positive, every NAV value is
positive. -/
lemma cumProdAux_pos (rs : List ℚ) : ∀ (acc : ℚ), 0 < acc → (∀ r ∈ rs, -1 < r) →
    ∀ x ∈ cumProdAux acc rs, 0 < x := by
  induction rs with
  | nil => intro acc _ _ x hx; simp [cumProdAux] at hx
  | cons r rs ih =>
      intro acc hacc hr x hx
      have hr0 : (-1 : ℚ) < r := hr r (by simp)
      have hpos : 0 < acc * (1 + r) := mul_pos hacc (by linarith)
      simp only [cumProdAux] at hx
      rcases List.mem_cons.mp hx with h | h
      · rw [h]; exact hpos
      · exact ih (acc * (1 + r)) hpos (fun s hs => hr s (List.mem_cons_of_mem r hs)) x h

/-- Every drawdown entry against the running maximum lies in `[-1, 0]` when
the NAV values are positive. -/
lemma ddAux_bounds (xs : List ℚ) : ∀ (m : ℚ), 0 < m → (∀ x ∈ xs, 0 < x) →
    ∀ d ∈ List.zipWith (fun c mx => (c - mx) / mx) xs (runningMaxAux m xs),
      -1 ≤ d ∧ d ≤ 0 := by
  induction xs with
  | nil => intro m _ _ d hd; simp [runningMaxAux] at hd
  | cons y ys ih =>
      intro m hm hxs d hd
      have hy : 0 < y := hxs y (by simp)
      have hmax : 0 < max m y := lt_of_lt_of_le hy (le_max_right m y)
      simp only [runningMaxAux, List.zipWith_cons_cons] at hd
      rcases List.mem_cons.mp hd with h | h
      · subst h
        constructor
        · rw [le_div_iff₀ hmax]
          have := le_max_right m y
          nlinarith
        · rw [div_le_iff₀ hmax]
          have := le_max_right m y
          nlinarith
      · exact ih (max m y) hmax (fun x hx => hxs x (List.mem_cons_of_mem y hx)) d h

/-- The drawdown entries are all zero iff the NAV curve never falls below
the running maximum carried in from the left, i.e. iff it is a
`≤`-chain from `m`. -/
lemma ddAux_zero_iff (xs : List ℚ) : ∀ (m : ℚ), 0 < m → (∀ x ∈ xs, 0 < x) →
    ((∀ d ∈ List.zipWith (fun c mx => (c - mx) / mx) xs (runningMaxAux m xs), d = 0) ↔
      List.Chain (· ≤ ·) m xs) := by
  induction xs with
  | nil => intro m _ _; simp [runningMaxAux]
  | cons y ys ih =>
      intro m hm hxs
      have hy : 0 < y := hxs y (by simp)
      have hmax : 0 < max m y := lt_of_lt_of_le hy (le_max_right m y)
      simp only [runningMaxAux, List.zipWith_cons_cons]
      rw [List.forall_mem_cons, List.chain_cons]
      constructor
      · rintro ⟨h0, htail⟩
        have hle : m ≤ y := by
          rw [div_eq_zero_iff] at h0
          rcases h0 with h | h
          · have hym : y = max m y := by linarith [sub_eq_zero.mp h]
            exact max_eq_right_iff.mp hym.symm
          · exact absurd h (ne_of_gt hmax)
        refine ⟨hle, ?_⟩
        rw [max_eq_right hle] at htail
        exact (ih y hy (fun x hx => hxs x (List.mem_cons_of_mem y hx))).mp htail
      · rintro ⟨hle, hchain⟩
        have hmaxy : max m y = y := max_eq_right hle
        refine ⟨?_, ?_⟩
        · rw [hmaxy, sub_self, zero_div]
        · rw [hmaxy]
          exact (ih y hy (fun x hx => hxs x (List.mem_cons_of_mem y hx))).mpr hchain

/-- Embeds `foldl min` never exceeds its initial value. -/
lemma foldl_min_le_init (a : ℚ) (l : List ℚ) : l.foldl min a ≤ a := by
  induction l generalizing a with
  | nil => exact le_refl a
  | cons x xs ih =>
      calc xs.foldl min (min a x) ≤ min a x := ih (min a x)
        _ ≤ a := min_le_left a x

/-- A common lower bound of the initial value and all elements bounds
`foldl min`. -/
lemma le_foldl_min (b : ℚ) (l : List ℚ) : ∀ (a : ℚ), b ≤ a → (∀ x ∈ l, b ≤ x) →
    b ≤ l.foldl min a := by
  induction l with
  | nil => intro a hba _; exact hba
  | cons x xs ih =>
      intro a hba h
      exact ih (min a x) (le_min hba (h x (by simp)))
        (fun y hy => h y (List.mem_cons_of_mem x hy))

/-- Embeds `foldl min` keeps its initial value iff no element goes below it. -/
lemma foldl_min_eq_init_iff (a : ℚ) (l : List ℚ) :
    l.foldl min a = a ↔ ∀ x ∈ l, a ≤ x := by
  induction l generalizing a with
  | nil => simp
  | cons x xs ih =>
      constructor
      · intro h
        rw [List.foldl_cons] at h
        have h1 : xs.foldl min (min a x) ≤ min a x := foldl_min_le_init (min a x) xs
        have hax : a ≤ x := by
          by_contra hax
          push_neg at hax
          rw [min_eq_right hax.le] at h h1
          rw [h] at h1
          exact absurd h1 (not_le.mpr hax)
        intro y hy
        rcases List.mem_cons.mp hy with hyx | hyxs
        · rw [hyx]; exact hax
        · have h2 : xs.foldl min a = a := by
            rw [min_eq_left hax] at h
            exact h
          exact (ih a).mp h2 y hyxs
      · intro h
        rw [List.foldl_cons, min_eq_left (h x (by simp))]
        exact (ih a).mpr (fun y hy => h y (List.mem_cons_of_mem x hy))

/-- Claim C4, confirmed: for every nonempty daily return series derived
from positive prices (so each return exceeds `-1`), the max drawdown of
lines 930-934 of `utils.py` — the minimum of `(cum - runmax)/runmax` over
the NAV curve — is defined, lies in `[-1, 0]`, and is `0` exactly when the
cumulative NAV curve is non-decreasing throughout.  `maxDrawdownCalc` is
precisely the computation that fills the 最大回撤 field of
`calculate_portfolio_metrics`. -/
theorem c4_drawdown_bounds (rs : List ℚ) (hne : rs ≠ [])
    (hpos : ∀ r ∈ rs, -1 < r) :
    ∃ d, maxDrawdownCalc rs = some d ∧ -1 ≤ d ∧ d ≤ 0 ∧
      (d = 0 ↔ List.Chain' (· ≤ ·) (cumProd rs)) := by
  obtain ⟨r0, rest, rfl⟩ : ∃ r0 rest, rs = r0 :: rest := by
    cases rs with
    | nil => exact absurd rfl hne
    | cons r0 rest => exact ⟨r0, rest, rfl⟩
  have hr0 : (-1 : ℚ) < r0 := hpos r0 (by simp)
  have hc0 : 0 < 1 * (1 + r0) := by nlinarith
  have hcs : ∀ x ∈ cumProdAux (1 * (1 + r0)) rest, 0 < x :=
    cumProdAux_pos rest (1 * (1 + r0)) hc0
      (fun r hr => hpos r (List.mem_cons_of_mem r0 hr))
  have hcum : cumProd (r0 :: rest) =
      (1 * (1 + r0)) :: cumProdAux (1 * (1 + r0)) rest := rfl
  have hdd : drawdownList (cumProd (r0 :: rest)) =
      ((1 * (1 + r0)) - (1 * (1 + r0))) / (1 * (1 + r0)) ::
        List.zipWith (fun c mx => (c - mx) / mx) (cumProdAux (1 * (1 + r0)) rest)
          (runningMaxAux (1 * (1 + r0)) (cumProdAux (1 * (1 + r0)) rest)) := rfl
  have hzero : ((1 * (1 + r0)) - (1 * (1 + r0))) / (1 * (1 + r0)) = (0 : ℚ) := by
    rw [sub_self, zero_div]
  refine ⟨(List.zipWith (fun c mx => (c - mx) / mx) (cumProdAux (1 * (1 + r0)) rest)
      (runningMaxAux (1 * (1 + r0)) (cumProdAux (1 * (1 + r0)) rest))).foldl min 0,
    ?_, ?_, ?_, ?_⟩
  · unfold maxDrawdownCalc
    rw [hdd, hzero]
    rfl
  · exact le_foldl_min (-1) _ 0 (by norm_num)
      (fun x hx => (ddAux_bounds _ _ hc0 hcs x hx).1)
  · exact foldl_min_le_init 0 _
  · rw [hcum]
    have hiff1 := foldl_min_eq_init_iff 0
      (List.zipWith (fun c mx => (c - mx) / mx) (cumProdAux (1 * (1 + r0)) rest)
        (runningMaxAux (1 * (1 + r0)) (cumProdAux (1 * (1 + r0)) rest)))
    have hiff2 : (∀ x ∈ List.zipWith (fun c mx => (c - mx) / mx)
        (cumProdAux (1 * (1 + r0)) rest)
        (runningMaxAux (1 * (1 + r0)) (cumProdAux (1 * (1 + r0)) rest)), (0:ℚ) ≤ x) ↔
        (∀ x ∈ List.zipWith (fun c mx => (c - mx) / mx)
          (cumProdAux (1 * (1 + r0)) rest)
          (runningMaxAux (1 * (1 + r0)) (cumProdAux (1 * (1 + r0)) rest)), x = 0) := by
      constructor
      · intro h x hx
        exact le_antisymm ((ddAux_bounds _ _ hc0 hcs x hx).2) (h x hx)
      · intro h x hx
        exact (h x hx).ge
    have hiff3 := ddAux_zero_iff (cumProdAux (1 * (1 + r0)) rest) (1 * (1 + r0))
      hc0 hcs
    exact hiff1.trans (hiff2.trans hiff3)

/-- Witness for `c4_drawdown_bounds` on the concrete return series
`[1/10, -1/2]` (a gain then a loss). -/
theorem c4_drawdown_bounds_witness :
    ∃ d, maxDrawdownCalc [1/10, -1/2] = some d ∧ -1 ≤ d ∧ d ≤ 0 ∧
      (d = 0 ↔ List.Chain' (· ≤ ·) (cumProd [1/10, -1/2])) :=
  c4_drawdown_bounds [1/10, -1/2] (by decide) (by norm_num)

/-! ## Claims C5, C6, C7, C10: optimizer lemmas -/

/-- Sum of a `zipWith` as an indexed `Finset.range` sum (the defaults are
only read out of range, which the `min` excludes). -/
lemma sum_zipWith_eq {α β M : Type} [AddCommMonoid M] (f : α → β → M)
    (xs : List α) (ys : List β) (dx : α) (dy : β) :
    (List.zipWith f xs ys).sum =
      ∑ i in Finset.range (min xs.length ys.length), f (xs.getD i dx) (ys.getD i dy) := by
  induction xs generalizing ys with
  | nil => simp
  | cons x xs ih =>
      cases ys with
      | nil => simp
      | cons y ys =>
          rw [List.zipWith_cons_cons, List.sum_cons, ih ys, List.length_cons,
            List.length_cons, Nat.succ_min_succ, Finset.sum_range_succ']
          simp only [List.getD_cons_succ, List.getD_cons_zero]
          exact add_comm _ _

/-- Embeds `np.sum(xs * ys)` as an indexed real sum. -/
lemma dotQ_cast_sum (xs ys : List ℚ) :
    ((dotQ xs ys : ℚ) : ℝ) = ∑ i in Finset.range (min xs.length ys.length),
      ((xs.getD i 0 : ℚ) : ℝ) * ((ys.getD i 0 : ℚ) : ℝ) := by
  unfold dotQ
  rw [sum_zipWith_eq (fun a b => a * b) xs ys 0 0]
  push_cast
  rfl

/-- Entry `i` of `np.dot(m, v)` (both sides are `0`/`dotQ [] v = 0` out of
range). -/
lemma matVecQ_getD (m : List (List ℚ)) (v : List ℚ) :
    ∀ i, (matVecQ m v).getD i 0 = dotQ (m.getD i []) v := by
  induction m with
  | nil => intro i; cases i <;> simp [matVecQ, dotQ]
  | cons row rows ih =>
      intro i
      cases i with
      | zero => rfl
      | succ j => exact ih j

/-- Entry `i` of a `zipWith`, within range. -/
lemma zipWith_getD {α β γ : Type} (f : α → β → γ) (xs : List α) (ys : List β)
    (dx : α) (dy : β) (dz : γ) :
    ∀ i, i < min xs.length ys.length →
      (List.zipWith f xs ys).getD i dz = f (xs.getD i dx) (ys.getD i dy) := by
  induction xs generalizing ys with
  | nil => intro i hi; simp at hi
  | cons x xs ih =>
      intro i hi
      cases ys with
      | nil => simp at hi
      | cons y ys =>
          cases i with
          | zero => rfl
          | succ j =>
              rw [List.length_cons, List.length_cons, Nat.succ_min_succ] at hi
              exact ih ys j (Nat.lt_of_succ_lt_succ hi)

/-- Entry `i` of a `map`, within range. -/
lemma map_getD {α β : Type} (f : α → β) (xs : List α) (dx : α) (dz : β) :
    ∀ i, i < xs.length → (xs.map f).getD i dz = f (xs.getD i dx) := by
  induction xs with
  | nil => intro i hi; simp at hi
  | cons x xs ih =>
      intro i hi
      cases i with
      | zero => rfl
      | succ j => exact ih j (Nat.lt_of_succ_lt_succ hi)

/-- Embeds `np.dot(w.T, np.dot(m, w))` as a double indexed real sum, for a square
matrix whose rows all have the length of `w`. -/
lemma quadFormQ_cast_sum (m : List (List ℚ)) (v : List ℚ)
    (hm : m.length = v.length) (hrow : ∀ r ∈ m, r.length = v.length) :
    ((quadFormQ m v : ℚ) : ℝ) =
      ∑ i in Finset.range v.length, ∑ j in Finset.range v.length,
        ((v.getD i 0 : ℚ) : ℝ) * (((m.getD i []).getD j 0 : ℚ) : ℝ) *
          ((v.getD j 0 : ℚ) : ℝ) := by
  unfold quadFormQ
  rw [dotQ_cast_sum]
  have hlen : (matVecQ m v).length = m.length := by simp [matVecQ]
  rw [hlen, hm, min_self]
  apply Finset.sum_congr rfl
  intro i hi
  rw [matVecQ_getD m v i, dotQ_cast_sum]
  have hirow : (m.getD i []).length = v.length := by
    apply hrow
    have him : i < m.length := by rw [hm]; exact Finset.mem_range.mp hi
    rw [List.getD_eq_getElem _ _ him]
    exact List.getElem_mem him
  rw [hirow, min_self, Finset.mul_sum]
  apply Finset.sum_congr rfl
  intro j hj
  ring

/-- Claim C5, the objective written from the spec's words: annualized
expected portfolio return divided by annualized portfolio volatility
`sqrt (wᵀ Σ w)`, with **no** risk-free rate subtracted. -/
noncomputable def specSharpeNoRf (df : List (List ℚ)) (w : List ℚ) : ℝ :=
  (∑ i in Finset.range w.length,
      (((meanReturnsAnn df).getD i 0 : ℚ) : ℝ) * ((w.getD i 0 : ℚ) : ℝ)) /
    Real.sqrt (∑ i in Finset.range w.length, ∑ j in Finset.range w.length,
      ((w.getD i 0 : ℚ) : ℝ) * ((((covMatrixAnn df).getD i []).getD j 0 : ℚ) : ℝ) *
        ((w.getD j 0 : ℚ) : ℝ))

/-- Claim C5, confirmed: the function `markowitz_optimization` hands to the
minimizer is exactly the negation of the Sharpe ratio `μ·w / sqrt(wᵀΣw)`
built from the annualized mean vector and the annualized covariance matrix,
with no risk-free rate in the numerator (line 969 of `utils.py` divides
`port_return` directly by `port_volatility`), so minimizing it maximizes
that ratio; and the solver's equality constraint `check_sum w = 0` holds
exactly on weight vectors summing to `1` (the `(0,1)` bounds of line 981
are `markowitzBounds`). -/
theorem c5_markowitz_objective (df : List (List ℚ)) (w : List ℚ)
    (h : w.length = df.length) :
    negative_sharpe df w = -(specSharpeNoRf df w) ∧
      (check_sum w = 0 ↔ w.sum = 1) := by
  constructor
  · have hnum : ((dotQ (meanReturnsAnn df) w : ℚ) : ℝ) =
        ∑ i in Finset.range w.length,
          (((meanReturnsAnn df).getD i 0 : ℚ) : ℝ) * ((w.getD i 0 : ℚ) : ℝ) := by
      rw [dotQ_cast_sum]
      have hlm : (meanReturnsAnn df).length = df.length := by simp [meanReturnsAnn]
      rw [hlm, ← h, min_self]
    have hden : ((quadFormQ (covMatrixAnn df) w : ℚ) : ℝ) =
        ∑ i in Finset.range w.length, ∑ j in Finset.range w.length,
          ((w.getD i 0 : ℚ) : ℝ) * ((((covMatrixAnn df).getD i []).getD j 0 : ℚ) : ℝ) *
            ((w.getD j 0 : ℚ) : ℝ) := by
      apply quadFormQ_cast_sum
      · simp [covMatrixAnn, h]
      · intro r hr
        rcases List.mem_map.mp hr with ⟨c, _, rfl⟩
        simp [h]
    unfold negative_sharpe portfolio_stats specSharpeNoRf
    rw [hnum, hden]
  · unfold check_sum
    constructor
    · intro h0; linarith
    · intro h1; rw [h1]; ring

/-- Witness for `c5_markowitz_objective` on a concrete 2-asset return
table. -/
theorem c5_markowitz_objective_witness :
    negative_sharpe [[1, 2], [2, 4]] [1/2, 1/2] =
        -(specSharpeNoRf [[1, 2], [2, 4]] [1/2, 1/2]) ∧
      (check_sum [1/2, 1/2] = 0 ↔ ([1/2, 1/2] : List ℚ).sum = 1) :=
  c5_markowitz_objective [[1, 2], [2, 4]] [1/2, 1/2] (by decide)

/-- Claim C6 as frozen is false: when the solver reports non-convergence
(`success = false`), both optimizers return the **empty dict** `{}` (lines
1002 and 1054 of `utils.py`), which is not Python `None`. -/
theorem c6_counterexample :
    markowitz_optimization [[1, 2]] (SolverOutcome.mk false [1]) = PyRet.emptyDict ∧
      risk_parity_optimization [[1, 2]] (SolverOutcome.mk false [1]) = PyRet.emptyDict ∧
      (PyRet.emptyDict : PyRet MarkowitzResult) ≠ PyRet.pyNone ∧
      (PyRet.emptyDict : PyRet RiskParityResult) ≠ PyRet.pyNone := by
  refine ⟨rfl, rfl, ?_, ?_⟩ <;> intro hcon <;> exact PyRet.noConfusion hcon

/-- Claim C6, amended: on every non-converged solver outcome both
`markowitz_optimization` and `risk_parity_optimization` return the empty
dict `{}` — a falsy explicit failure value, but not `None`, and not a
thrown exception. -/
theorem c6_nonconvergence_empty_dict (df : List (List ℚ)) (s : SolverOutcome)
    (h : s.success = false) :
    markowitz_optimization df s = PyRet.emptyDict ∧
      risk_parity_optimization df s = PyRet.emptyDict := by
  constructor
  · unfold markowitz_optimization
    rw [h]
    simp
  · unfold risk_parity_optimization
    rw [h]
    simp

/-- Witness for `c6_nonconvergence_empty_dict` at a concrete failed solver
outcome. -/
theorem c6_nonconvergence_empty_dict_witness :
    markowitz_optimization [[1, 2]] (SolverOutcome.mk false [1, 2]) = PyRet.emptyDict ∧
      risk_parity_optimization [[1, 2]] (SolverOutcome.mk false [1, 2]) = PyRet.emptyDict :=
  c6_nonconvergence_empty_dict [[1, 2]] (SolverOutcome.mk false [1, 2]) rfl

/-- Claim C7's asserted objective, written from the claim's words: squared
deviations of each risk contribution from `σ(w)/N` — the equal-contribution
target as a fraction of the **total portfolio risk** `σ(w)`. -/
noncomputable def claimRiskParityObjective (cov : List (List ℚ)) (w : List ℚ) : ℝ :=
  (List.zipWith (fun rc t => (rc - t) ^ 2) (risk_contribution cov w)
    (List.replicate cov.length
      (Real.sqrt ((quadFormQ cov w : ℚ) : ℝ) / (cov.length : ℝ)))).sum

/-- Claim C7 as frozen is false: for the one-asset covariance `[[4]]` and
weights `[1]` the risk contribution is `4 / sqrt 4 = 2` and the total risk
is `σ = 2`, so the claim's objective (target `σ/N = 2`) is `0`, while the
code's objective (constant target `1/N = 1`, line 1027 of `utils.py`) is
`(2-1)² = 1`. -/
theorem c7_counterexample :
    risk_parity_objective [[4]] [1] = 1 ∧
      claimRiskParityObjective [[4]] [1] = 0 ∧
      risk_parity_objective [[4]] [1] ≠ claimRiskParityObjective [[4]] [1] := by
  have hq : ((quadFormQ [[4]] [1] : ℚ) : ℝ) = 4 := by
    norm_num [quadFormQ, dotQ, matVecQ]
  have hs : Real.sqrt ((quadFormQ [[4]] [1] : ℚ) : ℝ) = 2 := by
    rw [hq, show (4 : ℝ) = 2 ^ 2 by norm_num, Real.sqrt_sq (by norm_num : (0:ℝ) ≤ 2)]
  have h1 : risk_parity_objective [[4]] [1] = 1 := by
    unfold risk_parity_objective risk_contribution
    rw [hs]
    norm_num [matVecQ, dotQ]
  have h2 : claimRiskParityObjective [[4]] [1] = 0 := by
    unfold claimRiskParityObjective risk_contribution
    rw [hs]
    norm_num [matVecQ, dotQ]
  refine ⟨h1, h2, ?_⟩
  rw [h1, h2]
  norm_num

/-- Claim C7, amended: the objective minimized by
`risk_parity_optimization` is the sum over assets of the squared deviation
between asset `i`'s risk contribution `wᵢ (Σw)ᵢ / σ(w)` and the **constant**
equal-weight target `1/N` (not `σ(w)/N`), over the box/simplex constraints
shared with the mean-variance optimizer. -/
theorem c7_objective_constant_target (cov : List (List ℚ)) (w : List ℚ) :
    risk_parity_objective cov w =
      ∑ i in Finset.range (min w.length cov.length),
        (((w.getD i 0 : ℚ) : ℝ) * (((matVecQ cov w).getD i 0 : ℚ) : ℝ) /
            Real.sqrt ((quadFormQ cov w : ℚ) : ℝ) - 1 / (cov.length : ℝ)) ^ 2 := by
  unfold risk_parity_objective
  rw [sum_zipWith_eq (fun rc t => (rc - t) ^ 2) _ _ (0 : ℝ) (0 : ℝ)]
  have hrc : (risk_contribution cov w).length = min w.length cov.length := by
    simp [risk_contribution, matVecQ]
  rw [hrc, List.length_replicate, min_assoc, min_self]
  apply Finset.sum_congr rfl
  intro i hi
  have hi2 : i < min w.length cov.length := Finset.mem_range.mp hi
  have hiw : i < w.length := lt_of_lt_of_le hi2 (min_le_left _ _)
  have hicov : i < cov.length := lt_of_lt_of_le hi2 (min_le_right _ _)
  have hrcget : (risk_contribution cov w).getD i 0 =
      ((w.getD i 0 : ℚ) : ℝ) * (((matVecQ cov w).getD i 0 : ℚ) : ℝ) /
        Real.sqrt ((quadFormQ cov w : ℚ) : ℝ) := by
    unfold risk_contribution
    rw [zipWith_getD _ w _ 0 (0 : ℝ) (0 : ℝ) i
      (by simpa [matVecQ] using hi2)]
    rw [map_getD _ _ (0 : ℚ) (0 : ℝ) i (by simpa [matVecQ] using hicov)]
    ring
  have hrep : (List.replicate cov.length ((1 : ℝ) / (cov.length : ℝ))).getD i 0 =
      1 / (cov.length : ℝ) := by
    rw [List.getD_eq_getElem _ _ (by simpa using hicov)]
    simp
  rw [hrcget, hrep]

/-- Claim C10, confirmed: whenever the solver converged,
`markowitz_optimization` returns the dict whose `expected_return` is the
dot product of the returned weights with the annualized mean-return vector,
whose `volatility` is `sqrt(wᵀΣw)` for the annualized covariance matrix,
and whose Sharpe ratio is exactly `expected_return / volatility` — all three
produced by the single `portfolio_stats` call of line 993. -/
theorem c10_markowitz_consistency (df : List (List ℚ)) (s : SolverOutcome)
    (h : s.success = true) :
    markowitz_optimization df s = PyRet.val (markowitzSuccessResult df s.x) ∧
      (markowitzSuccessResult df s.x).expected_return =
        ((dotQ (meanReturnsAnn df) s.x : ℚ) : ℝ) ∧
      (markowitzSuccessResult df s.x).volatility =
        Real.sqrt ((quadFormQ (covMatrixAnn df) s.x : ℚ) : ℝ) ∧
      (markowitzSuccessResult df s.x).sharpe =
        (markowitzSuccessResult df s.x).expected_return /
          (markowitzSuccessResult df s.x).volatility := by
  refine ⟨?_, rfl, rfl, rfl⟩
  unfold markowitz_optimization
  rw [h]
  simp

/-- Witness for `c10_markowitz_consistency` at a concrete converged solver
outcome. -/
theorem c10_markowitz_consistency_witness :
    markowitz_optimization [[1, 2]] (SolverOutcome.mk true [1]) =
        PyRet.val (markowitzSuccessResult [[1, 2]] [1]) ∧
      (markowitzSuccessResult [[1, 2]] [1]).expected_return =
        ((dotQ (meanReturnsAnn [[1, 2]]) [1] : ℚ) : ℝ) ∧
      (markowitzSuccessResult [[1, 2]] [1]).volatility =
        Real.sqrt ((quadFormQ (covMatrixAnn [[1, 2]]) [1] : ℚ) : ℝ) ∧
      (markowitzSuccessResult [[1, 2]] [1]).sharpe =
        (markowitzSuccessResult [[1, 2]] [1]).expected_return /
          (markowitzSuccessResult [[1, 2]] [1]).volatility :=
  c10_markowitz_consistency [[1, 2]] (SolverOutcome.mk true [1]) rfl

/-! ## Claim C9 -/

/-- Claim C9 as frozen is false: with a date window of only 9 trading days,
every ticker's history fails the `len(hist) > 20` filter of line 511, so
`simulate_backtest` returns the **no-data** error of line 524, which
reports nothing about how many observations were available — not the
count-carrying insufficient-data error of lines 541/547 that the claim
requires. -/
theorem c9_counterexample :
    simulate_backtest
        (BTInput.mk [7] [1] [some (List.replicate 9 (some 100))] none) [] [] =
        BacktestResult.errNoData ∧
      reportsAvailCount (simulate_backtest
        (BTInput.mk [7] [1] [some (List.replicate 9 (some 100))] none) [] []) =
        false := by
  constructor <;> decide

/-- Claim C9, amended: every call that is left with fewer than 10 valid
aligned trading days after alignment and forward-fill returns an error
value — the no-data error when no ticker passed the minimum-history filter,
and otherwise the insufficient-data error carrying the number of available
observations — never a crash and never a normal-looking metrics record. -/
theorem c9_insufficient_data_error (inp : BTInput) (noiseA : List (List ℚ))
    (noiseB : List ℚ) (h : numRows (btAligned inp) < 10) :
    simulate_backtest inp noiseA noiseB = BacktestResult.errNoData ∨
      simulate_backtest inp noiseA noiseB =
        BacktestResult.errFewPrices (numRows (btAligned inp)) := by
  unfold simulate_backtest
  by_cases hv : btValid inp = []
  · rw [if_pos hv]
    exact Or.inl rfl
  · rw [if_neg hv, if_pos h]
    exact Or.inr rfl

/-- Witness for `c9_insufficient_data_error` at a concrete input (a 5-row
history and one failed download). -/
theorem c9_insufficient_data_error_witness :
    simulate_backtest
        (BTInput.mk [1, 2] [1, 1] [some (List.replicate 5 (some 50)), none] none)
        [] [] = BacktestResult.errNoData ∨
      simulate_backtest
        (BTInput.mk [1, 2] [1, 1] [some (List.replicate 5 (some 50)), none] none)
        [] [] = BacktestResult.errFewPrices (numRows (btAligned
          (BTInput.mk [1, 2] [1, 1] [some (List.replicate 5 (some 50)), none] none))) :=
  c9_insufficient_data_error
    (BTInput.mk [1, 2] [1, 1] [some (List.replicate 5 (some 50)), none] none)
    [] [] (by decide)

/-! ## Claim C8 -/

/-- Positions `0..len-1` read back the list itself. -/
lemma map_getD_range (l : List ℚ) :
    (List.range l.length).map (fun t => l.getD t 0) = l := by
  apply List.ext_getElem (by simp)
  intro i h1 h2
  simp [List.getD_eq_getElem?_getD, List.getElem?_eq_getElem h2]

/-- A single asset with weight `1` reproduces its own return series. -/
lemma portfolioReturns_single (c : List ℚ) : portfolioReturns [c] [1] = c := by
  unfold portfolioReturns numRows
  simp only [List.head?_cons, Option.getD_some, List.zipWith_cons_cons,
    List.zipWith_nil_right, List.sum_cons, List.sum_nil, mul_one, add_zero]
  exact map_getD_range c

/-- Column of 21 retrieved rows of the constant price 100 (degenerate variance). -/
def btConstCol : List (Option ℚ) := List.replicate 21 (some 100)

/-- Column of 20 rows at 100 followed by one at 200 (non-degenerate variance). -/
def btStepCol : List (Option ℚ) := List.replicate 20 (some 100) ++ [some 200]

/-- One ticker, weight 1, constant retrieved prices, no benchmark. -/
def btConstInput : BTInput := BTInput.mk [5] [1] [some btConstCol] none

/-- One ticker, weight 1, stepped retrieved prices, no benchmark. -/
def btStepInput : BTInput := BTInput.mk [5] [1] [some btStepCol] none

/-- The all-zero daily return series of the constant input. -/
def zeros20 : List ℚ :=
  [0, 0, 0, 0, 0, 0, 0, 0, 0, 0, 0, 0, 0, 0, 0, 0, 0, 0, 0, 0]

/-- One possible RNG draw: a single unit spike then zeros. -/
def spike20 : List ℚ :=
  [1, 0, 0, 0, 0, 0, 0, 0, 0, 0, 0, 0, 0, 0, 0, 0, 0, 0, 0, 0]

/-- The return series of the stepped input: nineteen zeros then `+100%`. -/
def stepRet20 : List ℚ :=
  [0, 0, 0, 0, 0, 0, 0, 0, 0, 0, 0, 0, 0, 0, 0, 0, 0, 0, 0, 1]

lemma btConst_aligned : btAligned btConstInput =
    [[100, 100, 100, 100, 100, 100, 100, 100, 100, 100, 100,
      100, 100, 100, 100, 100, 100, 100, 100, 100, 100]] := by
  decide

lemma btConst_returns : btReturns btConstInput = [zeros20] := by
  rw [btReturns, btConst_aligned]
  norm_num [colReturns, zeros20]

lemma btConst_weights : btNormWeights btConstInput = [1] := by
  have hraw : btRawWeights btConstInput = [1] := by decide
  rw [btNormWeights, hraw]
  norm_num

lemma btConst_guard : btZeroVarGuard btConstInput := by
  unfold btZeroVarGuard
  rw [btConst_returns]
  intro c hc
  rw [List.mem_singleton.mp hc]
  norm_num [sampleVar, zeros20]

lemma btConst_run_zero :
    simulate_backtest btConstInput [zeros20] zeros20 =
      btFinish btConstInput zeros20 := by
  unfold simulate_backtest
  rw [if_neg (by decide : ¬ btValid btConstInput = []),
    if_neg (by decide : ¬ numRows (btAligned btConstInput) < 10),
    if_neg (by decide : ¬ numRows (btReturns btConstInput) < 10)]
  congr 1
  unfold btFinalReturns btPr0 btNoisyReturns
  rw [if_pos btConst_guard, btConst_returns, btConst_weights]
  have haddz : addMat [zeros20] [zeros20] = [zeros20] := by
    norm_num [addMat, zeros20]
  rw [haddz, portfolioReturns_single]
  rw [if_pos (by norm_num [sampleVarTotal, meanTotal, zeros20])]
  norm_num [zeros20]

lemma btConst_run_spike :
    simulate_backtest btConstInput [spike20] zeros20 =
      btFinish btConstInput spike20 := by
  unfold simulate_backtest
  rw [if_neg (by decide : ¬ btValid btConstInput = []),
    if_neg (by decide : ¬ numRows (btAligned btConstInput) < 10),
    if_neg (by decide : ¬ numRows (btReturns btConstInput) < 10)]
  congr 1
  unfold btFinalReturns btPr0 btNoisyReturns
  rw [if_pos btConst_guard, btConst_returns, btConst_weights]
  have hadds : addMat [zeros20] [spike20] = [spike20] := by
    norm_num [addMat, zeros20, spike20]
  rw [hadds, portfolioReturns_single]
  rw [if_neg (by norm_num [sampleVarTotal, meanTotal, spike20])]

lemma btConst_results_differ :
    btFinish btConstInput zeros20 ≠ btFinish btConstInput spike20 := by
  intro hcon
  have h := congrArg
    (fun r => match r with
      | BacktestResult.ok r => r.annualReturn
      | _ => 0) hcon
  simp only [btFinish] at h
  norm_num [meanTotal, zeros20, spike20] at h

/-- Claim C8 as frozen is false: on the degenerate (zero-variance) input
`btConstInput` — identical stocks, weights, window and retrieved prices —
two calls of `simulate_backtest` differing only in the draw of
`np.random.normal` (line 552, hidden unseeded global RNG state, not an
argument of the call) return different results, so the noise injected by
the guard is random, not deterministic. -/
theorem c8_counterexample :
    simulate_backtest btConstInput [zeros20] zeros20 ≠
      simulate_backtest btConstInput [spike20] zeros20 := by
  rw [btConst_run_zero, btConst_run_spike]
  exact btConst_results_differ

/-- Claim C8, amended: `simulate_backtest` is independent of the RNG draws
— hence deterministic in its declared inputs — exactly when neither
zero-variance guard fires; in the degenerate case the injected
`np.random.normal` noise is random, so identical inputs need not give
identical results (determinism then holds only for identical draws). -/
theorem c8_noise_free_determinism (inp : BTInput)
    (nA nA' : List (List ℚ)) (nB nB' : List ℚ)
    (h1 : ¬ btZeroVarGuard inp)
    (h2 : sampleVarTotal (portfolioReturns (btReturns inp) (btNormWeights inp)) ≠ 0) :
    simulate_backtest inp nA nB = simulate_backtest inp nA' nB' := by
  have hnr : ∀ nX, btNoisyReturns inp nX = btReturns inp := fun nX => if_neg h1
  have hpr : ∀ nX, btPr0 inp nX =
      portfolioReturns (btReturns inp) (btNormWeights inp) := by
    intro nX
    unfold btPr0
    rw [hnr]
  have hfr : ∀ nX nY, btFinalReturns inp nX nY =
      portfolioReturns (btReturns inp) (btNormWeights inp) := by
    intro nX nY
    unfold btFinalReturns
    rw [hpr, if_neg h2]
  unfold simulate_backtest
  rw [hfr nA nB, hfr nA' nB']

lemma btStep_aligned : btAligned btStepInput =
    [[100, 100, 100, 100, 100, 100, 100, 100, 100, 100, 100,
      100, 100, 100, 100, 100, 100, 100, 100, 100, 200]] := by
  decide

lemma btStep_returns : btReturns btStepInput = [stepRet20] := by
  rw [btReturns, btStep_aligned]
  norm_num [colReturns, stepRet20]

lemma btStep_weights : btNormWeights btStepInput = [1] := by
  have hraw : btRawWeights btStepInput = [1] := by decide
  rw [btNormWeights, hraw]
  norm_num

/-- Witness for `c8_noise_free_determinism` on the non-degenerate stepped
input and four different noise draws. -/
theorem c8_noise_free_determinism_witness :
    simulate_backtest btStepInput [[1]] [3] =
      simulate_backtest btStepInput [[2]] [4] := by
  apply c8_noise_free_determinism
  · intro hcon
    have h := hcon stepRet20 (by rw [btStep_returns]; exact List.mem_singleton_self _)
    norm_num [sampleVar, stepRet20] at h
  · rw [btStep_returns, btStep_weights, portfolioReturns_single]
    norm_num [sampleVarTotal, meanTotal, stepRet20]
